import Mathlib

/-!
Verification of the frame-processing pipeline and acquisition loop of
a people-detection application (`app.py`).

The original logic is shallowly embedded: the frame pipeline
(`process_frame`) is translated directly from the source; external
library calls (the detector, the drawing primitives of the imaging
library, the capture device, the UI placeholders, wall-clock time and
sleeping) are modelled by explicit data so that the control flow and
the observable effects of the original code can be stated and proved.
-/

namespace PeopleDetection

/-- A frame: a mutable pixel buffer of shape height x width x channels
(BGR images have 3 channels).  Pixels are addressed row, column,
channel. -/
structure Image where
  height : Nat
  width : Nat
  channels : Nat
  pix : Nat → Nat → Nat → Nat

/-- One detection as exposed by the detector result: a class identifier
(`int(box.cls[0])`), the pixel box `map(int, box.xyxy[0])`, and a
confidence score (`float(box.conf[0])`, modelled as an exact rational). -/
structure Box where
  cls : Nat
  x1 : Int
  y1 : Int
  x2 : Int
  y2 : Int
  conf : ℚ

/-- The detector result for one frame (`results[0]`): its `boxes`
collection may be absent (`None`). -/
structure DetResult where
  boxes : Option (List Box)

/-- One drawing call issued against the frame buffer: an axis-aligned
rectangle (`cv2.rectangle`, outline for positive thickness, filled for
thickness -1) or a label text draw (`cv2.putText`; the label renders the
word Person plus the confidence, so the operation records the
confidence it displays). -/
inductive DrawOp where
  | rect (x1 y1 x2 y2 : Int) (b g r : Nat) (thickness : Int)
  | text (conf : ℚ) (x y : Int)

/-- Whether a drawing call is a rectangle draw. -/
def DrawOp.isRect : DrawOp → Bool
  | .rect _ _ _ _ _ _ _ _ => true
  | .text _ _ _ => false

/-- Model of the external `cv2.getTextSize` call: the size in pixels of
the rendered label.  The pipeline only threads this size into the label
background rectangle's corner coordinates; no claim depends on the
actual metrics, so the model returns a fixed nominal size. -/
def getTextSize (_conf : ℚ) : Nat × Nat := (80, 12)

/-- Membership of a pixel in the closed rectangle `[x1,x2] x [y1,y2]`. -/
def inRect (x1 y1 x2 y2 x y : Int) : Bool :=
  x1 ≤ x && x ≤ x2 && y1 ≤ y && y ≤ y2

/-- Model of the external drawing primitives: each call rewrites some
pixels of the buffer (the exact raster produced by the imaging library
is not specified here; what matters for the claims is that drawing
touches only `pix`, never the buffer shape, and that applying no
operation leaves the buffer untouched). -/
def applyOp (op : DrawOp) (img : Image) : Image :=
  match op with
  | .rect x1 y1 x2 y2 b g r _t =>
      { img with pix := fun row col c =>
          if inRect x1 y1 x2 y2 (Int.ofNat col) (Int.ofNat row) then
            (if c = 0 then b else if c = 1 then g else r)
          else img.pix row col c }
  | .text _conf x y =>
      { img with pix := fun row col c =>
          if Int.ofNat col = x && Int.ofNat row = y then 0
          else img.pix row col c }

/-- Apply a list of drawing calls to a frame, in order. -/
def applyAll (ops : List DrawOp) (img : Image) : Image :=
  ops.foldl (fun im op => applyOp op im) img

/-- The three drawing calls the source issues for one kept (person)
detection: the green bounding box of thickness 2, the filled label
background sized from `getTextSize`, and the label text at
`(x1, y1 - 5)`. -/
def boxOps (b : Box) : List DrawOp :=
  let sz := getTextSize b.conf
  let label_width := sz.1
  let label_height := sz.2
  [ DrawOp.rect b.x1 b.y1 b.x2 b.y2 0 255 0 2,
    DrawOp.rect b.x1 (b.y1 - label_height - 10) (b.x1 + label_width) b.y1 0 255 0 (-1),
    DrawOp.text b.conf b.x1 (b.y1 - 5) ]

/-- One iteration of the detection loop in `process_frame`: a box of
class 0 increments the count and draws its three operations on the
accumulated frame; any other class is skipped. -/
def stepBox (acc : Image × Nat) (b : Box) : Image × Nat :=
  if b.cls = 0 then
    (applyAll (boxOps b) acc.1, acc.2 + 1)
  else acc

/-- Translation of process_frame after the detector call has produced
`result`: guard on `result.boxes is not None`, then fold the per-box
step over the boxes, returning the (mutated) frame and the people
count. -/
def process_frame (frame : Image) (result : DetResult) : Image × Nat :=
  match result.boxes with
  | none => (frame, 0)
  | some bs => bs.foldl stepBox (frame, 0)

/-- The number of detections in the result whose class identifier is the
person class (0). -/
def personCount (result : DetResult) : Nat :=
  (result.boxes.getD []).countP fun b => b.cls == 0

/-- The drawing calls issued for a list of boxes, in the order the
source issues them. -/
def drawOps : List Box → List DrawOp
  | [] => []
  | b :: bs => if b.cls = 0 then boxOps b ++ drawOps bs else drawOps bs

/-- The number of rectangle draws (`cv2.rectangle` calls) issued by
`process_frame` for a detector result. -/
def rectanglesDrawn (result : DetResult) : Nat :=
  (drawOps (result.boxes.getD [])).countP DrawOp.isRect

lemma applyAll_nil (img : Image) : applyAll [] img = img := rfl

lemma applyAll_append (xs ys : List DrawOp) (img : Image) :
    applyAll (xs ++ ys) img = applyAll ys (applyAll xs img) := by
  simp [applyAll, List.foldl_append]

lemma foldl_stepBox (bs : List Box) (img : Image) (n : Nat) :
    bs.foldl stepBox (img, n)
      = (applyAll (drawOps bs) img, n + bs.countP fun b => b.cls == 0) := by
  induction bs generalizing img n with
  | nil => simp [drawOps, applyAll_nil]
  | cons b bs ih =>
      by_cases h : b.cls = 0
      · simp only [List.foldl_cons, stepBox, h, if_pos, List.countP_cons, drawOps,
          applyAll_append, ih]
        simp [h, Nat.add_assoc, Nat.add_comm]
      · simp only [List.foldl_cons, stepBox, h, if_neg, List.countP_cons, drawOps, ih]
        simp [h]

lemma countP_isRect_boxOps (b : Box) :
    (boxOps b).countP DrawOp.isRect = 2 := rfl

lemma countP_isRect_drawOps (bs : List Box) :
    (drawOps bs).countP DrawOp.isRect
      = 2 * bs.countP (fun b => b.cls == 0) := by
  induction bs with
  | nil => simp [drawOps]
  | cons b bs ih =>
      by_cases h : b.cls = 0
      · simp [drawOps, h, List.countP_append, countP_isRect_boxOps, ih,
          List.countP_cons, Nat.mul_add]
        ring
      · simp [drawOps, h, ih, List.countP_cons]

lemma drawOps_eq_nil (bs : List Box) (h : ∀ b ∈ bs, b.cls ≠ 0) : drawOps bs = [] := by
  induction bs with
  | nil => rfl
  | cons b bs ih =>
      have hb := h b (by simp)
      have ht : drawOps bs = [] := ih fun x hx => h x (List.mem_cons_of_mem _ hx)
      simp [drawOps, hb, ht]

lemma applyOp_shape (op : DrawOp) (img : Image) :
    (applyOp op img).height = img.height ∧ (applyOp op img).width = img.width ∧
      (applyOp op img).channels = img.channels := by
  cases op <;> exact ⟨rfl, rfl, rfl⟩

lemma applyAll_shape (ops : List DrawOp) (img : Image) :
    (applyAll ops img).height = img.height ∧ (applyAll ops img).width = img.width ∧
      (applyAll ops img).channels = img.channels := by
  induction ops generalizing img with
  | nil => exact ⟨rfl, rfl, rfl⟩
  | cons op ops ih =>
      have h1 : applyAll (op :: ops) img = applyAll ops (applyOp op img) := rfl
      rw [h1]
      obtain ⟨e1, e2, e3⟩ := ih (applyOp op img)
      obtain ⟨f1, f2, f3⟩ := applyOp_shape op img
      exact ⟨e1.trans f1, e2.trans f2, e3.trans f3⟩

/-- Running process_frame behind the detector-call boundary: the
detector either returns its result or raises, and process_frame wraps
the call in no handler of its own, so a detector error is returned
unchanged. -/
def process_frame_run (frame : Image) (detect : Except String DetResult) :
    Except String (Image × Nat) :=
  match detect with
  | .error e => .error e
  | .ok res => .ok (process_frame frame res)

/-- C1 (amended): the count returned by process_frame equals the number
of returned detections whose class identifier equals the person class
id (0); each such detection issues two rectangle draws (its bounding
box and the filled label background), so the number of rectangles drawn
on the image is twice the count, and the count equals the number of
bounding-box rectangles drawn. -/
theorem process_frame_count_correct (img : Image) (res : DetResult) :
    (process_frame img res).2 = personCount res ∧
      rectanglesDrawn res = 2 * personCount res := by
  obtain ⟨boxes⟩ := res
  cases boxes with
  | none => exact ⟨rfl, rfl⟩
  | some bs =>
      constructor
      · simp [process_frame, foldl_stepBox, personCount]
      · simp [rectanglesDrawn, personCount, countP_isRect_drawOps]

/-- C1 counterexample: for a detector result holding exactly one
person-class detection, the returned count is 1 while two rectangles
are drawn on the image (the bounding box and the filled label
background), so the count does not equal the number of rectangles
drawn. -/
theorem process_frame_count_ne_rectangles :
    ¬ ((process_frame ⟨4, 4, 3, fun _ _ _ => 0⟩
          ⟨some [⟨0, 1, 1, 3, 3, (9 : ℚ)/10⟩]⟩).2
        = rectanglesDrawn ⟨some [⟨0, 1, 1, 3, 3, (9 : ℚ)/10⟩]⟩) := by
  decide

/-- C2: if the detector result contains no person-class detection
(its boxes collection absent, empty, or holding only other classes),
process_frame returns the input frame unchanged, pixel for pixel, with
a count of 0. -/
theorem process_frame_no_person (img : Image) (res : DetResult)
    (h : ∀ b ∈ res.boxes.getD [], b.cls ≠ 0) :
    process_frame img res = (img, 0) := by
  obtain ⟨boxes⟩ := res
  cases boxes with
  | none => rfl
  | some bs =>
      have h' : ∀ b ∈ bs, b.cls ≠ 0 := by simpa using h
      have hc : bs.countP (fun b => b.cls == 0) = 0 := by
        rw [List.countP_eq_zero]
        intro a ha
        simpa using h' a ha
      simp [process_frame, foldl_stepBox, drawOps_eq_nil bs h', applyAll_nil, hc]

theorem process_frame_no_person_witness :
    (∀ b ∈ (DetResult.mk (some [Box.mk 39 0 0 2 2 ((1 : ℚ)/2)])).boxes.getD [],
        b.cls ≠ 0) ∧
      process_frame ⟨4, 4, 3, fun _ _ _ => 0⟩ ⟨some [⟨39, 0, 0, 2, 2, (1 : ℚ)/2⟩]⟩
        = (⟨4, 4, 3, fun _ _ _ => 0⟩, 0) :=
  ⟨by decide, process_frame_no_person ⟨4, 4, 3, fun _ _ _ => 0⟩
    ⟨some [⟨39, 0, 0, 2, 2, (1 : ℚ)/2⟩]⟩ (by decide)⟩

/-- C6: process_frame is a pure function of the frame and the detector
outcome (it performs no I/O in the model), and its only failure mode is
the detector call itself: a detector error is propagated unchanged,
and a detector success never produces an error. -/
theorem process_frame_propagates_detector_error (img : Image) (e : String)
    (res : DetResult) :
    process_frame_run img (Except.error e) = Except.error e ∧
      process_frame_run img (Except.ok res) = Except.ok (process_frame img res) :=
  ⟨rfl, rfl⟩

/-- C7: the frame returned by process_frame is exactly the input frame
with the pipeline's drawing calls applied in place, and its height,
width and channel count equal the input's. -/
theorem process_frame_annotates_in_place (img : Image) (res : DetResult) :
    (process_frame img res).1 = applyAll (drawOps (res.boxes.getD [])) img ∧
      (process_frame img res).1.height = img.height ∧
      (process_frame img res).1.width = img.width ∧
      (process_frame img res).1.channels = img.channels := by
  have h1 : (process_frame img res).1 = applyAll (drawOps (res.boxes.getD [])) img := by
    obtain ⟨boxes⟩ := res
    cases boxes with
    | none => rfl
    | some bs => simp [process_frame, foldl_stepBox]
  refine ⟨h1, ?_, ?_, ?_⟩ <;> rw [h1]
  · exact (applyAll_shape _ img).1
  · exact (applyAll_shape _ img).2.1
  · exact (applyAll_shape _ img).2.2

/-- C9: when the detector result's boxes collection is absent (None),
process_frame returns the input frame unchanged and a count of 0; the
iteration is guarded by the None check, so this cannot fail. -/
theorem process_frame_boxes_none (img : Image) :
    process_frame img ⟨none⟩ = (img, 0) := rfl

/-! ## Acquisition/display shell

The processing loop of `main` is modelled piecewise: the metric-update
logic over the sequence of per-frame people counts, the per-iteration
UI events, the stop/read exit conditions, the frame pacing arithmetic
(with wall-clock durations as exact rationals), and the resource
cleanup of the try/finally block. -/

/-- The in-loop metric updates: starting from the remembered
`previous_count`, each frame whose count differs from the previous one
writes its count to the metric display and becomes the new previous
count; equal counts write nothing. -/
def metricChanges : Nat → List Nat → List Nat
  | _, [] => []
  | prev, c :: cs => if c = prev then metricChanges prev cs else c :: metricChanges c cs

/-- All values ever shown by the count metric for a run over the given
per-frame counts: the display is initialized to 0 before the loop and
`previous_count` starts at 0, then the in-loop updates follow. -/
def displayedMetricValues (counts : List Nat) : List Nat :=
  0 :: metricChanges 0 counts

/-- A UI write performed inside one loop iteration: the frame
placeholder is given the freshly processed image, or the count metric
is given a new value. -/
inductive UiEvent where
  | imageUpdate
  | metricUpdate (value : Nat)

/-- Whether a UI write is a frame-placeholder image update. -/
def UiEvent.isImage : UiEvent → Bool
  | .imageUpdate => true
  | .metricUpdate _ => false

/-- The value written by a metric update, if the event is one. -/
def UiEvent.metricValue : UiEvent → Option Nat
  | .metricUpdate v => some v
  | .imageUpdate => none

/-- The UI writes the loop body performs for a sequence of per-frame
people counts, in program order: every iteration updates the image
placeholder, then updates the metric only when the count changed. -/
def loopEvents : Nat → List Nat → List UiEvent
  | _, [] => []
  | prev, c :: cs =>
      UiEvent.imageUpdate ::
        (if c = prev then loopEvents prev cs
         else UiEvent.metricUpdate c :: loopEvents c cs)

lemma metricChanges_eq_filter (counts : List Nat) :
    ∀ prev, metricChanges prev counts
      = ((counts.zip (prev :: counts)).filter fun p => p.1 != p.2).map Prod.fst := by
  induction counts with
  | nil => intro prev; rfl
  | cons c cs ih =>
      intro prev
      rw [metricChanges]
      by_cases h : c = prev
      · subst h
        rw [if_pos rfl, ih c]
        simp [List.zip_cons_cons, List.filter_cons]
      · rw [if_neg h, ih c]
        have hbne : (c != prev) = true := by simp [h]
        simp [List.zip_cons_cons, List.filter_cons, hbne]

/-- C3: the displayed metric is updated exactly on the frames whose
count differs from the immediately preceding frame's count (the first
frame is compared against the initial previous count 0, and the display
is initialized to 0 before the loop); in particular the count sequence
0,0,2,2,2,1 produces exactly three displayed values: 0, then 2,
then 1. -/
theorem metric_updates_only_on_change (counts : List Nat) :
    displayedMetricValues counts
        = 0 :: ((counts.zip (0 :: counts)).filter fun p => p.1 != p.2).map Prod.fst ∧
      displayedMetricValues [0, 0, 2, 2, 2, 1] = [0, 2, 1] := by
  constructor
  · rw [displayedMetricValues, metricChanges_eq_filter]
  · rfl

/-- C10: every loop iteration writes the processed frame to the image
placeholder, unconditionally, so the number of image updates equals the
number of frames processed; the metric writes are exactly the
conditional updates of the count-change logic. -/
theorem image_updated_every_iteration (prev : Nat) (counts : List Nat) :
    ((loopEvents prev counts).countP UiEvent.isImage) = counts.length ∧
      (loopEvents prev counts).filterMap UiEvent.metricValue
        = metricChanges prev counts := by
  induction counts generalizing prev with
  | nil => exact ⟨rfl, rfl⟩
  | cons c cs ih =>
      by_cases h : c = prev
      · obtain ⟨h1, h2⟩ := ih prev
        constructor
        · simp [loopEvents, h, UiEvent.isImage, h1]
        · simp [loopEvents, h, metricChanges, UiEvent.metricValue, h2]
      · obtain ⟨h1, h2⟩ := ih c
        constructor
        · simp [loopEvents, h, UiEvent.isImage, UiEvent.metricValue, h1]
        · simp [loopEvents, h, metricChanges, UiEvent.metricValue, h2]

/-- The frames the processing loop actually processes.  The source of
frames is a list of read outcomes (`some` a frame, `none` a failed
read, end of list an exhausted capture).  Iteration `i` first polls the
stop flag; if it is set the loop breaks before reading.  Then the read
happens; a failed read breaks the loop.  Otherwise the frame is
processed and the loop continues with iteration `i + 1`. -/
def runLoop (stop : Nat → Bool) : Nat → List (Option Image) → List Image
  | _, [] => []
  | i, r :: rest =>
      if stop i then []
      else
        match r with
        | none => []
        | some f => f :: runLoop stop (i + 1) rest

/-- The frames before the first read failure: what the loop processes
when the stop flag is never set. -/
def readUntilFailure : List (Option Image) → List Image
  | [] => []
  | none :: _ => []
  | some f :: rest => f :: readUntilFailure rest

lemma runLoop_length_le (stop : Nat → Bool) :
    ∀ (frames : List (Option Image)) (i n : Nat), stop (i + n) = true →
      (runLoop stop i frames).length ≤ n := by
  intro frames
  induction frames with
  | nil => intro i n _; simp [runLoop]
  | cons r rest ih =>
      intro i n hstop
      by_cases hi : stop i = true
      · simp [runLoop, hi]
      · cases r with
        | none => simp [runLoop, hi]
        | some f =>
            cases n with
            | zero =>
                exact absurd (by simpa using hstop) (by simpa using hi)
            | succ m =>
                have h1 : stop ((i + 1) + m) = true := by
                  have : (i + 1) + m = i + (m + 1) := by omega
                  rw [this]; exact hstop
                have h2 := ih (i + 1) m h1
                simp only [runLoop, hi, if_neg, Bool.false_eq_true,
                  not_false_eq_true, List.length_cons]
                omega

lemma runLoop_no_stop (frames : List (Option Image)) :
    ∀ i, runLoop (fun _ => false) i frames = readUntilFailure frames := by
  induction frames with
  | nil => intro i; rfl
  | cons r rest ih =>
      intro i
      cases r with
      | none => rfl
      | some f => simp [runLoop, readUntilFailure, ih (i + 1)]

/-- C8: the stop flag is polled once at the top of every iteration,
before the frame read; if the flag is set by iteration n the loop
processes at most n frames, and with the flag never set the loop
processes exactly the frames preceding the first read failure, exiting
at that failure without processing anything further. -/
theorem loop_stops_on_flag_or_read_failure (stop : Nat → Bool)
    (frames : List (Option Image)) :
    (∀ n, stop n = true → (runLoop stop 0 frames).length ≤ n) ∧
      runLoop (fun _ => false) 0 frames = readUntilFailure frames := by
  constructor
  · intro n hn
    exact runLoop_length_le stop frames 0 n (by simpa using hn)
  · exact runLoop_no_stop frames 0

theorem loop_stops_witness :
    ((fun n => decide (2 ≤ n)) 2 = true) ∧
      (runLoop (fun n => decide (2 ≤ n)) 0
          [some ⟨1, 1, 3, fun _ _ _ => 0⟩, some ⟨1, 1, 3, fun _ _ _ => 0⟩,
            some ⟨1, 1, 3, fun _ _ _ => 0⟩, some ⟨1, 1, 3, fun _ _ _ => 0⟩]).length
        ≤ 2 :=
  ⟨by decide,
    (loop_stops_on_flag_or_read_failure (fun n => decide (2 ≤ n))
        [some ⟨1, 1, 3, fun _ _ _ => 0⟩, some ⟨1, 1, 3, fun _ _ _ => 0⟩,
          some ⟨1, 1, 3, fun _ _ _ => 0⟩, some ⟨1, 1, 3, fun _ _ _ => 0⟩]).1
      2 (by decide)⟩

/-- The fixed frame pacing target of the loop: 1/15 of a second. -/
def frame_time_target : ℚ := 1 / 15

/-- The duration passed to sleep at the end of an iteration whose work
took `elapsed` seconds: the shortfall against the target when the
iteration finished early, otherwise no sleep at all. -/
def sleepSeconds (elapsed : ℚ) : ℚ :=
  if elapsed < frame_time_target then frame_time_target - elapsed else 0

/-- C5: under the 1/15-second target, an iteration finishing early
sleeps at least the shortfall (target minus elapsed), the requested
sleep is never negative, and pacing never drops frames: with no stop
and no read failure every frame is processed in order. -/
theorem pacing_sleeps_shortfall (elapsed : ℚ) (frames : List Image) :
    0 ≤ sleepSeconds elapsed ∧
      (elapsed < frame_time_target →
        frame_time_target - elapsed ≤ sleepSeconds elapsed) ∧
      runLoop (fun _ => false) 0 (frames.map some) = frames := by
  refine ⟨?_, ?_, ?_⟩
  · rw [sleepSeconds]
    by_cases h : elapsed < frame_time_target
    · rw [if_pos h]; linarith
    · rw [if_neg h]
  · intro h
    rw [sleepSeconds, if_pos h]
  · rw [runLoop_no_stop]
    induction frames with
    | nil => rfl
    | cons f fs ih => simp [readUntilFailure, ih]

theorem pacing_sleeps_shortfall_witness :
    ((1 : ℚ)/30 < frame_time_target) ∧
      0 ≤ sleepSeconds ((1 : ℚ)/30) ∧
      frame_time_target - (1 : ℚ)/30 ≤ sleepSeconds ((1 : ℚ)/30) :=
  ⟨by norm_num [frame_time_target],
    (pacing_sleeps_shortfall ((1 : ℚ)/30) []).1,
    (pacing_sleeps_shortfall ((1 : ℚ)/30) []).2.1
      (by norm_num [frame_time_target])⟩

/-- How the processing loop ends: the capture runs out of readable
frames, the user stop flag is found set, or the loop body raises (the
exception is caught by the surrounding handler, which reports it and
falls through to the finally block). -/
inductive LoopExit where
  | endOfStream
  | userStop
  | exceptionInLoop

/-- The inputs that select a control path through `main`: the source
choice (camera or video file), whether a file was uploaded (video
source only), whether the capture opened, how the loop exits when it
runs, and whether deleting the temporary file raises when attempted. -/
structure MainEnv where
  cameraSource : Bool
  hasUpload : Bool
  openOk : Bool
  exit : LoopExit
  unlinkRaises : Bool

/-- The observable resource state after `main` returns: how many times
the capture was released, whether the temporary file is still on disk,
and whether any exception escaped `main`. -/
structure MainOutcome where
  releaseCount : Nat
  tempExists : Bool
  propagated : Bool

/-- The finally block of `main`: release the capture when one was
created, then, when a temporary path was recorded and the file still
exists, attempt to delete it, ignoring a failure of the deletion (the
file then remains, but nothing propagates). -/
def finallyBlock (capCreated tempCreated tempNow unlinkRaises : Bool) : MainOutcome :=
  { releaseCount := if capCreated then 1 else 0,
    tempExists := if tempCreated && tempNow then unlinkRaises else tempNow,
    propagated := false }

/-- The resource behaviour of `main` on each control path.  Camera
source: the capture is created, then either the open check fails and
main returns early, or the loop runs to one of its exits; no temporary
file exists on this path.  Video source: without an upload main returns
before creating anything; with an upload the temporary file and the
capture are created, a failed open deletes the file inline before
returning early (a failure of that deletion is caught by the
surrounding handler), and an opened capture runs the loop to one of its
exits.  Every path falls through to the finally block. -/
def runMain (e : MainEnv) : MainOutcome :=
  if e.cameraSource then
    if !e.openOk then
      finallyBlock true false false e.unlinkRaises
    else
      match e.exit with
      | .endOfStream => finallyBlock true false false e.unlinkRaises
      | .userStop => finallyBlock true false false e.unlinkRaises
      | .exceptionInLoop => finallyBlock true false false e.unlinkRaises
  else
    if !e.hasUpload then
      finallyBlock false false false e.unlinkRaises
    else
      if !e.openOk then
        finallyBlock true true e.unlinkRaises e.unlinkRaises
      else
        match e.exit with
        | .endOfStream => finallyBlock true true true e.unlinkRaises
        | .userStop => finallyBlock true true true e.unlinkRaises
        | .exceptionInLoop => finallyBlock true true true e.unlinkRaises

/-- C4: on every control path of `main` no exception escapes (loop
exceptions are caught and cleanup failures are swallowed), the capture
is never released more than once, every path that created a capture
(camera source, or video source with an upload — which covers every
exit from the acquisition loop and the open-failure paths) releases it
exactly once, and when the deletion does not itself fail the temporary
file is absent afterward. -/
theorem cleanup_on_every_exit (e : MainEnv) :
    (runMain e).propagated = false ∧
      (runMain e).releaseCount ≤ 1 ∧
      ((e.cameraSource || e.hasUpload) = true → (runMain e).releaseCount = 1) ∧
      (e.unlinkRaises = false → (runMain e).tempExists = false) := by
  obtain ⟨cam, up, op, ex, ur⟩ := e
  cases cam <;> cases up <;> cases op <;> cases ex <;> cases ur <;>
    simp [runMain, finallyBlock]

theorem cleanup_on_every_exit_witness :
    ((false || true) = true →
        (runMain ⟨false, true, true, LoopExit.userStop, false⟩).releaseCount = 1) ∧
      (runMain ⟨false, true, true, LoopExit.userStop, false⟩).releaseCount = 1 ∧
      (runMain ⟨false, true, true, LoopExit.userStop, false⟩).tempExists = false :=
  ⟨(cleanup_on_every_exit ⟨false, true, true, LoopExit.userStop, false⟩).2.2.1,
    (cleanup_on_every_exit ⟨false, true, true, LoopExit.userStop, false⟩).2.2.1 rfl,
    (cleanup_on_every_exit ⟨false, true, true, LoopExit.userStop, false⟩).2.2.2 rfl⟩

end PeopleDetection
